import Mathlib

/-!
Verification of the partner-deal backend: a shallow embedding of the
sheet-as-database access layer, the admin-allowlist role resolution, the
ownership filter on deal rows, and the login user-provisioning flow.

A sheet grid is a list of rows of string cells; a JavaScript cell access
that can yield undefined is modelled with Option String, and the
source-level normalisation (cell or empty string) with Option.getD.
-/

/-- A raw sheet grid: row 0 is the header, rows 1.. are data. -/
abbrev Grid := List (List String)

/-- A row object as built by the services: header keys paired with cell
values in header order, blanks normalised to the empty string. -/
abbrev RowMap := List (String × String)

/-- Array access at an optional index, as in JavaScript where indexing at
minus one or past the end yields undefined. -/
def jsAt (row : List String) (idx : Option Nat) : Option String :=
  match idx with
  | none => none
  | some i => row.get? i

/-- Property access on a row object: the value written last for the key
wins, as for JavaScript object assignment; absent keys yield undefined. -/
def jsGet (obj : RowMap) (key : String) : Option String :=
  obj.foldl (fun acc p => if p.1 == key then some p.2 else acc) none

/-- JavaScript truthiness of a possibly-undefined string. -/
def jsTruthy (o : Option String) : Bool :=
  match o with
  | none => false
  | some s => s != ""

/-- The JavaScript or-default idiom: x or d when x is undefined or blank. -/
def jsOr (o : Option String) (d : String) : String :=
  match o with
  | none => d
  | some s => if s == "" then d else s

/-- JavaScript toLowerCase, written as a character-by-character map so
that it evaluates by kernel reduction; it agrees with String.toLower. -/
def jsToLowerCase (s : String) : String :=
  String.mk (s.data.map Char.toLower)

theorem jsToLowerCase_eq_toLower (s : String) : jsToLowerCase s = s.toLower := by
  rw [String.toLower, String.map_eq]
  rfl

theorem jsToLowerCase_eq_empty {s : String} (h : jsToLowerCase s = "") : s = "" := by
  rw [jsToLowerCase] at h
  have hdata : s.data.map Char.toLower = [] := congrArg String.data h
  rcases s with ⟨d⟩
  simp only [List.map_eq_nil_iff] at hdata
  simp [hdata]

/-- Row-to-object conversion used by findRowByValue and getAllRows: each
header gets the cell at its position, missing or blank cells becoming the
empty string. -/
def rowObject (headers row : List String) : RowMap :=
  match headers, row with
  | [], _ => []
  | h :: hs, [] => (h, "") :: rowObject hs []
  | h :: hs, x :: xs => (h, x) :: rowObject hs xs

/-- Translation of googleSheetsService.findRowByValue: linear scan for the
first data row whose cell in the named column is strictly equal to the
search value; an absent column is an error; an empty grid yields no row.
The search value is Option String because the caller may pass a field that
is undefined. -/
def findRowByValue (data : Grid) (columnName : String) (searchValue : Option String) :
    Except String (Option RowMap) :=
  match data with
  | [] => .ok none
  | headers :: rest =>
    match headers.findIdx? (· == columnName) with
    | none => .error ("Column not found: " ++ columnName)
    | some columnIndex =>
      match rest.find? (fun row => row.get? columnIndex == searchValue) with
      | some row => .ok (some (rowObject headers row))
      | none => .ok none

/-- Translation of googleSheetsService.getAllRows: header plus at least one
data row required, each data row converted to a row object. -/
def getAllRows (data : Grid) : List RowMap :=
  match data with
  | [] => []
  | [_] => []
  | headers :: rest => rest.map (rowObject headers)

/-- Translation of googleSheetsService.appendToSheet on the grid state: the
supplied values become one new row after the existing rows. -/
def appendToSheet (data : Grid) (values : List String) : Grid :=
  data ++ [values]

/-- Translation of checkAdminStatus in middleware/auth.js: reading the
Admins grid may fail, in which case the catch clause returns false; with a
readable grid the loop returns true on the first data row having a truthy
email cell, status cell equal to active, and email equal to the queried
email after lowercasing both. -/
def checkAdminStatus (adminsData : Except Unit Grid) (email : String) : Bool :=
  match adminsData with
  | .error _ => false
  | .ok [] => false
  | .ok (headers :: rest) =>
    let emailIndex := headers.findIdx? (· == "email")
    let statusIndex := headers.findIdx? (· == "status")
    rest.any (fun row =>
      match jsAt row emailIndex with
      | none => false
      | some adminEmail =>
        adminEmail != "" && jsAt row statusIndex == some "active" &&
          jsToLowerCase adminEmail == jsToLowerCase email)

/-- Specification-side admin predicate: some data row of the allowlist grid
has status cell active and an email cell equal to the queried email up to
letter case. -/
def AdminSpec (data : Grid) (email : String) : Prop :=
  ∃ row ∈ data.drop 1,
    jsAt row (data.headI.findIdx? (· == "status")) = some "active" ∧
    ∃ e, jsAt row (data.headI.findIdx? (· == "email")) = some e ∧
      jsToLowerCase e = jsToLowerCase email

/-- The payload of a signed session token as issued by the login flows. -/
structure TokenPayload where
  id : Option String
  email : Option String
  role : Option String
  partnerId : Option String
deriving DecidableEq, Repr

/-- The request user object attached by the authentication middleware. -/
structure ReqUser where
  id : Option String
  email : Option String
  role : Option String
  partnerId : Option String
  firstName : Option String
  lastName : Option String
  partnerName : Option String
deriving DecidableEq, Repr

/-- Outcome of the authentication middleware. -/
inductive AuthResult where
  | missingToken
  | invalidToken
  | serverError
  | unauthorized
  | authed (u : ReqUser)
deriving DecidableEq, Repr

/-- Translation of authenticateToken in middleware/auth.js: a missing or
unverifiable token is rejected; the user row is fetched by the decoded id
from the Users grid, rejected when absent or not active; the role attached
to the request is admin exactly when the allowlist check succeeds for the
user email, and otherwise the role stored on the user row. Failures of the
Users read surface as a server error via the outer catch. -/
def authenticateToken (token : Option (Except Unit TokenPayload))
    (usersData : Except Unit Grid) (adminsData : Except Unit Grid) : AuthResult :=
  match token with
  | none => .missingToken
  | some (.error _) => .invalidToken
  | some (.ok decoded) =>
    match usersData with
    | .error _ => .serverError
    | .ok users =>
      match findRowByValue users "id" decoded.id with
      | .error _ => .serverError
      | .ok none => .unauthorized
      | .ok (some user) =>
        if jsGet user "status" == some "active" then
          let isAdmin := checkAdminStatus adminsData ((jsGet user "email").getD "")
          let userRole := if isAdmin then some "admin" else jsGet user "role"
          .authed {
            id := jsGet user "id"
            email := jsGet user "email"
            role := userRole
            partnerId := jsGet user "partner_company"
            firstName := jsGet user "first_name"
            lastName := jsGet user "last_name"
            partnerName := jsGet user "partner_company" }
        else .unauthorized

/-- The per-row visibility predicate of the deal handlers, named
canViewDeal in the source: the caller sees a row when its role is admin or
the submitter email cell of the row is strictly equal to the caller email,
with JavaScript equality on possibly-undefined values. -/
def canViewDeal (user : Option ReqUser) (owner : Option String) : Bool :=
  (user.bind ReqUser.role == some "admin") || (owner == user.bind ReqUser.email)

/-- The ownership filter of the specification, realised as the source
predicate canViewDeal applied to each row of a collection. -/
def visibleRows (rows : List RowMap) (user : Option ReqUser) (ownerColumn : String) :
    List RowMap :=
  rows.filter (fun r => canViewDeal user (jsGet r ownerColumn))

/-- The loop body conditions of getDeals: visibility, then the optional
status and partner query filters, each skipped when the parameter is not
truthy. -/
def dealPred (user : Option ReqUser) (status partner : Option String) (deal : RowMap) : Bool :=
  canViewDeal user (jsGet deal "submitter_email") &&
  (!jsTruthy status || jsGet deal "status" == status) &&
  (!jsTruthy partner || jsGet deal "partner_company" == partner)

/-- Translation of getDeals in the deal controller: at most limit data
rows are scanned, counted from the top of the table, and each scanned row
is kept when it passes the visibility and query filters. -/
def getDeals (deals : Grid) (user : Option ReqUser) (status partner : Option String)
    (limit : Nat) : List RowMap :=
  match deals with
  | [] => []
  | [_] => []
  | headers :: rest =>
    ((rest.take limit).map (rowObject headers)).filter (dealPred user status partner)

/-- Translation of checkDuplicateDeals in the deal controller: a failing
read of the Deals grid yields no duplicates; otherwise every data row with
status cell different from rejected and company name or domain equal to
the query after lowercasing is returned in full, in table order. -/
def checkDuplicateDeals (deals : Except Unit Grid) (companyName domain : String) :
    Bool × List RowMap :=
  match deals with
  | .error _ => (false, [])
  | .ok [] => (false, [])
  | .ok (headers :: rest) =>
    let companyIndex := headers.findIdx? (· == "company_name")
    let domainIndex := headers.findIdx? (· == "domain")
    let statusIndex := headers.findIdx? (· == "status")
    let duplicates := (rest.filter (fun row =>
        let existingCompany := (jsAt row companyIndex).getD ""
        let existingDomain := (jsAt row domainIndex).getD ""
        let existingStatus := (jsAt row statusIndex).getD ""
        existingStatus != "rejected" &&
          (jsToLowerCase existingCompany == jsToLowerCase companyName ||
           jsToLowerCase existingDomain == jsToLowerCase domain))).map (rowObject headers)
    (!duplicates.isEmpty, duplicates)

/-- Translation of the check-duplicate route handler: it validates that
both body fields are truthy and then delegates to checkDuplicateDeals; the
request user set by the optional authentication is never consulted. -/
def checkDuplicateHandler (deals : Except Unit Grid) (_user : Option ReqUser)
    (companyName domain : Option String) : Except String (Bool × List RowMap) :=
  if !jsTruthy companyName || !jsTruthy domain then
    .error "Company name and domain are required"
  else
    .ok (checkDuplicateDeals deals (companyName.getD "") (domain.getD ""))

/-- An external identity as delivered by the upstream provider. -/
structure GoogleProfile where
  sub : String
  email : Option String
  given_name : Option String
  family_name : Option String
deriving DecidableEq, Repr

/-- Helper for jsSplit: splits a character list at each separator. -/
def jsSplitAux (sep : Char) : List Char → List Char → List String
  | [], acc => [String.mk acc.reverse]
  | c :: cs, acc =>
    if c = sep then String.mk acc.reverse :: jsSplitAux sep cs []
    else jsSplitAux sep cs (c :: acc)

/-- JavaScript string split on a single-character separator, written to
evaluate by kernel reduction; the split of an empty string is a list
holding one empty string, as in JavaScript. -/
def jsSplit (sep : Char) (s : String) : List String :=
  jsSplitAux sep s.data []

/-- Translation of getPartnerCompanyFromEmail in authService.js: the part
of the email after the first at sign, lowercased, is looked up in a static
table; a missing domain or an unmatched one yields the generic external
affiliation. -/
def getPartnerCompanyFromEmail (email : String) : String :=
  match (jsSplit '@' email).get? 1 with
  | none => "External Partner"
  | some d =>
    let domain := jsToLowerCase d
    if domain == "techflow.com" then "TechFlow Solutions"
    else if domain == "digitalinnovations.com" then "Digital Innovations Inc."
    else if domain == "cloudware.com" then "CloudWare Partners"
    else if domain == "databridge.com" then "DataBridge Consulting"
    else if domain == "daxa.ai" then "Daxa Internal"
    else "External Partner"

/-- Translation of googleLogin in authService.js, restricted to the Users
grid state and the returned user row: a profile without a truthy email
fails; an existing user row is returned as is; otherwise a new row with
role user, status active and the derived affiliation is appended and the
row is read back by email, the read-back row being what is returned. -/
def googleLogin (users : Grid) (now : String) (profile : GoogleProfile) :
    Grid × Except Unit RowMap :=
  if jsTruthy profile.email then
    let email := profile.email.getD ""
    let firstName := jsOr profile.given_name "Unknown"
    let lastName := jsOr profile.family_name "User"
    match findRowByValue users "email" (some email) with
    | .error _ => (users, .error ())
    | .ok (some user) => (users, .ok user)
    | .ok none =>
      let defaultPartnerCompany := getPartnerCompanyFromEmail email
      let userData := [profile.sub, email, firstName, lastName, defaultPartnerCompany,
        "user", "active", now]
      let users2 := appendToSheet users userData
      match findRowByValue users2 "email" (some email) with
      | .ok (some user) => (users2, .ok user)
      | _ => (users2, .error ())
  else (users, .error ())

/-! Helper lemmas about the embedding. -/

theorem rowObject_fst (H : List String) : ∀ r, (rowObject H r).map Prod.fst = H := by
  induction H with
  | nil => intro r; cases r <;> rfl
  | cons h hs ih =>
    intro r
    cases r with
    | nil => simpa [rowObject] using ih []
    | cons x xs => simpa [rowObject] using ih xs

theorem rowObject_get? (H : List String) :
    ∀ (r : List String) (i : Nat),
      (rowObject H r).get? i = (H.get? i).map (fun h => (h, (r.get? i).getD "")) := by
  induction H with
  | nil => intro r i; cases r <;> simp [rowObject]
  | cons h hs ih =>
    intro r i
    cases r with
    | nil =>
      cases i with
      | zero => simp [rowObject]
      | succ n => simpa [rowObject] using ih [] n
    | cons x xs =>
      cases i with
      | zero => simp [rowObject]
      | succ n => simpa [rowObject] using ih xs n

theorem rowObject_eq_zip (H : List String) :
    ∀ r, r.length = H.length → rowObject H r = H.zip r := by
  induction H with
  | nil => intro r _; cases r <;> rfl
  | cons h hs ih =>
    intro r hlen
    cases r with
    | nil => simp at hlen
    | cons x xs =>
      simp only [List.length_cons, Nat.succ.injEq] at hlen
      simp [rowObject, List.zip_cons_cons, ih xs hlen]

theorem rowObject_snd (H : List String) :
    ∀ r, r.length = H.length → (rowObject H r).map Prod.snd = r := by
  induction H with
  | nil => intro r h; cases r <;> simp_all [rowObject]
  | cons h hs ih =>
    intro r hlen
    cases r with
    | nil => simp at hlen
    | cons x xs =>
      simp only [List.length_cons, Nat.succ.injEq] at hlen
      simp [rowObject, ih xs hlen]

theorem find?_first {α : Type} (p : α → Bool) (pre : List α) (r : α) (post : List α)
    (hpre : ∀ x ∈ pre, p x = false) (hr : p r = true) :
    (pre ++ r :: post).find? p = some r := by
  induction pre with
  | nil => simp [List.find?_cons_of_pos, hr]
  | cons a as ih =>
    have ha : ¬ p a = true := by simp [hpre a (by simp)]
    rw [List.cons_append, List.find?_cons_of_neg _ ha]
    exact ih (fun x hx => hpre x (by simp [hx]))

theorem jsToLowerCase_ne_of_ne {e email : String}
    (hlow : jsToLowerCase e = jsToLowerCase email) (he : email ≠ "") : e ≠ "" := by
  intro h
  subst h
  exact he (jsToLowerCase_eq_empty (hlow.symm.trans rfl))

theorem checkAdminStatus_ok_iff (data : Grid) (email : String) (he : email ≠ "") :
    checkAdminStatus (.ok data) email = true ↔ AdminSpec data email := by
  cases data with
  | nil => simp [checkAdminStatus, AdminSpec]
  | cons headers rest =>
    simp only [checkAdminStatus, AdminSpec, List.any_eq_true, List.headI,
      List.drop_succ_cons, List.drop_zero]
    constructor
    · rintro ⟨row, hmem, hrow⟩
      refine ⟨row, hmem, ?_⟩
      cases hemail : jsAt row (headers.findIdx? (· == "email")) with
      | none => rw [hemail] at hrow; exact absurd hrow (by simp)
      | some e =>
        rw [hemail] at hrow
        simp only [Bool.and_eq_true, bne_iff_ne, ne_eq, beq_iff_eq] at hrow
        exact ⟨hrow.1.2, e, rfl, hrow.2⟩
    · rintro ⟨row, hmem, hst, e, he2, hlow⟩
      refine ⟨row, hmem, ?_⟩
      rw [he2]
      have hne : e ≠ "" := jsToLowerCase_ne_of_ne hlow he
      simp [hst, hlow, hne]

/-! Claim theorems. -/

/-- Claim C4: for every pair of queried emails agreeing up to letter case
the admin check returns the same boolean; it returns true exactly when
some allowlist data row has status active and an email equal to the
queried email up to case; and it returns false, not an error, when the
allowlist read fails, the table is absent, or it has no data rows. -/
theorem checkAdminStatus_spec (data : Grid) (e1 e2 email : String)
    (h12 : jsToLowerCase e1 = jsToLowerCase e2) (he : email ≠ "") :
    checkAdminStatus (.ok data) e1 = checkAdminStatus (.ok data) e2 ∧
    (checkAdminStatus (.ok data) email = true ↔ AdminSpec data email) ∧
    checkAdminStatus (.error ()) email = false ∧
    (data.length ≤ 1 → checkAdminStatus (.ok data) email = false) := by
  refine ⟨?_, checkAdminStatus_ok_iff data email he, rfl, ?_⟩
  · cases data with
    | nil => rfl
    | cons headers rest => simp [checkAdminStatus, h12]
  · intro hlen
    cases data with
    | nil => rfl
    | cons headers rest =>
      cases rest with
      | nil => simp [checkAdminStatus]
      | cons a as => simp at hlen

theorem checkAdminStatus_spec_witness :
    jsToLowerCase "A@B.co" = jsToLowerCase "a@b.CO" ∧
    checkAdminStatus (.ok [["email", "status"], ["Boss@X.com", "active"]]) "A@B.co" =
      checkAdminStatus (.ok [["email", "status"], ["Boss@X.com", "active"]]) "a@b.CO" ∧
    checkAdminStatus (.ok [["email", "status"], ["Boss@X.com", "active"]]) "boss@x.COM" = true ∧
    checkAdminStatus (.error ()) "boss@x.COM" = false := by
  have h := checkAdminStatus_spec [["email", "status"], ["Boss@X.com", "active"]]
    "A@B.co" "a@b.CO" "boss@x.COM" (by decide) (by decide)
  refine ⟨by decide, h.1, ?_, h.2.2.1⟩
  exact h.2.1.mpr ⟨["Boss@X.com", "active"], by decide, by decide, "Boss@X.com", rfl, by decide⟩

/-- Claim C3: when the allowlist read fails the admin check returns false
instead of propagating the error, and token verification consequently
attaches the role stored on the user row and still succeeds. -/
theorem authenticateToken_fail_open (users : Grid) (p : TokenPayload) (u : RowMap)
    (hfind : findRowByValue users "id" p.id = .ok (some u))
    (hactive : jsGet u "status" = some "active") :
    (∀ e, checkAdminStatus (.error ()) e = false) ∧
    authenticateToken (some (.ok p)) (.ok users) (.error ()) =
      .authed { id := jsGet u "id", email := jsGet u "email", role := jsGet u "role",
                partnerId := jsGet u "partner_company", firstName := jsGet u "first_name",
                lastName := jsGet u "last_name", partnerName := jsGet u "partner_company" } := by
  refine ⟨fun e => rfl, ?_⟩
  simp [authenticateToken, hfind, hactive, checkAdminStatus]

theorem authenticateToken_fail_open_witness :
    authenticateToken
      (some (.ok { id := some "42", email := some "old@x.com", role := some "user",
                   partnerId := none }))
      (.ok [["id", "email", "role", "status", "partner_company", "first_name", "last_name"],
            ["42", "Eve@Corp.com", "user", "active", "Acme", "Eve", "S"]])
      (.error ()) =
    .authed { id := some "42", email := some "Eve@Corp.com", role := some "user",
              partnerId := some "Acme", firstName := some "Eve", lastName := some "S",
              partnerName := some "Acme" } :=
  (authenticateToken_fail_open
    [["id", "email", "role", "status", "partner_company", "first_name", "last_name"],
     ["42", "Eve@Corp.com", "user", "active", "Acme", "Eve", "S"]]
    { id := some "42", email := some "old@x.com", role := some "user", partnerId := none }
    [("id", "42"), ("email", "Eve@Corp.com"), ("role", "user"), ("status", "active"),
     ("partner_company", "Acme"), ("first_name", "Eve"), ("last_name", "S")]
    rfl rfl).2

/-- Claim C1: on a valid token for an active user the effective role
attached to the request is admin exactly when the user email matches an
active allowlist row up to case, and otherwise the role stored on the
user row; the result is recomputed from the current Users and Admins
grids and is independent of the role claim embedded in the token. -/
theorem authenticateToken_effective_role (p : TokenPayload) (users adminsData : Grid)
    (u : RowMap) (e : String)
    (hfind : findRowByValue users "id" p.id = .ok (some u))
    (hactive : jsGet u "status" = some "active")
    (hemail : jsGet u "email" = some e) (he : e ≠ "") :
    (∀ q : TokenPayload, q.id = p.id →
      authenticateToken (some (.ok q)) (.ok users) (.ok adminsData) =
        authenticateToken (some (.ok p)) (.ok users) (.ok adminsData)) ∧
    (AdminSpec adminsData e →
      authenticateToken (some (.ok p)) (.ok users) (.ok adminsData) =
        .authed { id := jsGet u "id", email := some e, role := some "admin",
                  partnerId := jsGet u "partner_company", firstName := jsGet u "first_name",
                  lastName := jsGet u "last_name", partnerName := jsGet u "partner_company" }) ∧
    (¬ AdminSpec adminsData e →
      authenticateToken (some (.ok p)) (.ok users) (.ok adminsData) =
        .authed { id := jsGet u "id", email := some e, role := jsGet u "role",
                  partnerId := jsGet u "partner_company", firstName := jsGet u "first_name",
                  lastName := jsGet u "last_name", partnerName := jsGet u "partner_company" }) := by
  refine ⟨?_, ?_, ?_⟩
  · intro q hq
    simp [authenticateToken, hq]
  · intro hA
    have hadm : checkAdminStatus (.ok adminsData) e = true :=
      (checkAdminStatus_ok_iff adminsData e he).mpr hA
    simp [authenticateToken, hfind, hactive, hemail, hadm]
  · intro hA
    have hadm : checkAdminStatus (.ok adminsData) e = false := by
      rcases hb : checkAdminStatus (.ok adminsData) e with _ | _
      · rfl
      · exact absurd ((checkAdminStatus_ok_iff adminsData e he).mp hb) hA
    simp [authenticateToken, hfind, hactive, hemail, hadm]

theorem authenticateToken_effective_role_witness :
    authenticateToken
      (some (.ok { id := some "42", email := some "old@x.com", role := some "user",
                   partnerId := none }))
      (.ok [["id", "email", "role", "status", "partner_company", "first_name", "last_name"],
            ["42", "Eve@Corp.com", "user", "active", "Acme", "Eve", "S"]])
      (.ok [["email", "status"], ["eve@corp.COM", "active"]]) =
    .authed { id := some "42", email := some "Eve@Corp.com", role := some "admin",
              partnerId := some "Acme", firstName := some "Eve", lastName := some "S",
              partnerName := some "Acme" } :=
  (authenticateToken_effective_role
    { id := some "42", email := some "old@x.com", role := some "user", partnerId := none }
    [["id", "email", "role", "status", "partner_company", "first_name", "last_name"],
     ["42", "Eve@Corp.com", "user", "active", "Acme", "Eve", "S"]]
    [["email", "status"], ["eve@corp.COM", "active"]]
    [("id", "42"), ("email", "Eve@Corp.com"), ("role", "user"), ("status", "active"),
     ("partner_company", "Acme"), ("first_name", "Eve"), ("last_name", "S")]
    "Eve@Corp.com" rfl rfl rfl (by decide)).2.1
    ⟨["eve@corp.COM", "active"], by decide, by decide, "eve@corp.COM", by decide, by decide⟩

/-- Claim C2 counterexample: the claim states that a caller with no
identity receives the empty subset, but a row that lacks the owner-email
key entirely is visible to an anonymous caller, because in the source both
sides of the strict equality are then undefined. -/
theorem visibleRows_anonymous_counterexample :
    visibleRows [[("company_name", "Acme")]] none "submitter_email" ≠ [] := by
  decide

/-- Claim C2 amended: for an admin caller the filter returns all rows
unchanged in order; for a non-admin caller with an email it returns
exactly the rows whose owner-email entry equals that email by
case-sensitive exact match; for a caller with no identity it returns the
empty subset provided every row carries the owner-email key, a row
missing the key being visible to the anonymous caller; the filter is a
total function. -/
theorem visibleRows_spec (rows : List RowMap) (u : ReqUser) (oc : String) (e : String) :
    (u.role = some "admin" → visibleRows rows (some u) oc = rows) ∧
    (u.role ≠ some "admin" → u.email = some e →
      visibleRows rows (some u) oc = rows.filter (fun r => jsGet r oc == some e)) ∧
    ((∀ r ∈ rows, (jsGet r oc).isSome) → visibleRows rows none oc = []) := by
  refine ⟨?_, ?_, ?_⟩
  · intro hrole
    apply List.filter_eq_self.mpr
    intro r _
    simp [canViewDeal, hrole]
  · intro hrole hemail
    apply List.filter_congr
    intro r _
    have hb : (u.role == some "admin") = false := beq_eq_false_iff_ne.mpr hrole
    simp [canViewDeal, hemail, hb]
  · intro hsome
    apply List.filter_eq_nil_iff.mpr
    intro r hr
    have := hsome r hr
    cases h : jsGet r oc with
    | none => rw [h] at this; exact absurd this (by simp)
    | some s => simp [canViewDeal, h]

theorem visibleRows_spec_witness :
    visibleRows
      [[("submitter_email", "a@x.com"), ("company_name", "Acme")],
       [("submitter_email", "b@x.com"), ("company_name", "Beta")]]
      (some { id := none, email := some "a@x.com", role := some "user", partnerId := none,
              firstName := none, lastName := none, partnerName := none })
      "submitter_email" =
    [[("submitter_email", "a@x.com"), ("company_name", "Acme")]] := by
  have h := (visibleRows_spec
    [[("submitter_email", "a@x.com"), ("company_name", "Acme")],
     [("submitter_email", "b@x.com"), ("company_name", "Beta")]]
    { id := none, email := some "a@x.com", role := some "user", partnerId := none,
      firstName := none, lastName := none, partnerName := none }
    "submitter_email" "a@x.com").2.1 (by decide) rfl
  exact h.trans (by decide)

/-- Claim C5: with the searched column present at index i of the header,
findRowByValue returns a row object exactly when some data row holds the
search value in that column by exact string equality, and then it returns
the first such row in table order; a column absent from the header is an
error. -/
theorem findRowByValue_spec (H : List String) (rows : List (List String)) (c v : String) :
    (c ∉ H → findRowByValue (H :: rows) c (some v) = .error ("Column not found: " ++ c)) ∧
    (∀ i, H.findIdx? (· == c) = some i →
      ((∃ m, findRowByValue (H :: rows) c (some v) = .ok (some m)) ↔
        ∃ r ∈ rows, r.get? i = some v) ∧
      (∀ pre r post, rows = pre ++ r :: post → r.get? i = some v →
        (∀ q ∈ pre, q.get? i ≠ some v) →
        findRowByValue (H :: rows) c (some v) = .ok (some (rowObject H r)))) := by
  constructor
  · intro hc
    have hnone : H.findIdx? (· == c) = none := by
      apply List.findIdx?_eq_none_iff.mpr
      intro x hx
      simp only [beq_eq_false_iff_ne, ne_eq]
      exact fun h => hc (h ▸ hx)
    simp [findRowByValue, hnone]
  · intro i hidx
    constructor
    · constructor
      · rintro ⟨m, hm⟩
        simp only [findRowByValue, hidx] at hm
        cases hf : rows.find? (fun row => row.get? i == some v) with
        | none => rw [hf] at hm; exact absurd hm (by simp)
        | some row =>
          refine ⟨row, List.mem_of_find?_eq_some hf, ?_⟩
          have := List.find?_some hf
          simpa using this
      · rintro ⟨r, hmem, hval⟩
        simp only [findRowByValue, hidx]
        cases hf : rows.find? (fun row => row.get? i == some v) with
        | none =>
          have hno := List.find?_eq_none.mp hf r hmem
          simp only [beq_iff_eq] at hno
          exact absurd hval hno
        | some row => exact ⟨rowObject H row, rfl⟩
    · intro pre r post hrows hval hpre
      simp only [findRowByValue, hidx, hrows]
      rw [find?_first _ pre r post
        (fun q hq => beq_eq_false_iff_ne.mpr (hpre q hq))
        (by simp only [beq_iff_eq]; exact hval)]

theorem findRowByValue_spec_witness :
    findRowByValue [["id", "email"], ["1", "x@y.com"], ["2", "x@y.com"]] "email"
        (some "x@y.com") =
      .ok (some [("id", "1"), ("email", "x@y.com")]) ∧
    findRowByValue [["id", "email"], ["1", "x@y.com"]] "role" (some "x@y.com") =
      .error "Column not found: role" := by
  constructor
  · exact ((findRowByValue_spec ["id", "email"] [["1", "x@y.com"], ["2", "x@y.com"]]
      "email" "x@y.com").2 1 rfl).2 [] ["1", "x@y.com"] [["2", "x@y.com"]] rfl rfl
      (fun q hq => absurd hq (List.not_mem_nil q))
  · exact (findRowByValue_spec ["id", "email"] [["1", "x@y.com"]] "role" "x@y.com").1
      (by decide)

/-- Claim C6: a grid with fewer than two rows yields no row objects; with
a header and data rows, each returned row object is the conversion of one
data row, its key sequence is exactly the header, and the entry for
header position i carries the cell at position i normalised to the empty
string when the cell is missing or blank. -/
theorem getAllRows_spec (H : List String) (rows : List (List String)) :
    (∀ data : Grid, data.length < 2 → getAllRows data = []) ∧
    (rows ≠ [] → getAllRows (H :: rows) = rows.map (rowObject H)) ∧
    (∀ m ∈ getAllRows (H :: rows), m.map Prod.fst = H) ∧
    (∀ (r : List String) (i : Nat),
      (rowObject H r).get? i = (H.get? i).map (fun h => (h, (r.get? i).getD ""))) := by
  refine ⟨?_, ?_, ?_, rowObject_get? H⟩
  · intro data hlen
    match data with
    | [] => rfl
    | [_] => rfl
    | a :: b :: t => simp at hlen; omega
  · intro hne
    cases rows with
    | nil => exact absurd rfl hne
    | cons r rs => rfl
  · intro m hm
    cases rows with
    | nil => exact absurd hm (by simp [getAllRows])
    | cons r rs =>
      have : m ∈ (r :: rs).map (rowObject H) := hm
      rcases List.mem_map.mp this with ⟨q, _, hq⟩
      exact hq ▸ rowObject_fst H q

theorem getAllRows_spec_witness :
    getAllRows [["id", "email", "role"], ["1", "", "user"], ["2"]] =
      [[("id", "1"), ("email", ""), ("role", "user")], [("id", "2"), ("email", ""), ("role", "")]] ∧
    [[("id", "1"), ("email", ""), ("role", "user")], [("id", "2"), ("email", ""), ("role", "")]] =
      [["1", "", "user"], ["2"]].map (rowObject ["id", "email", "role"]) := by
  have h := (getAllRows_spec ["id", "email", "role"] [["1", "", "user"], ["2"]]).2.1 (by decide)
  exact ⟨h.trans (by decide), by decide⟩

/-- Claim C7: appending a row whose values match the header in length and
order, then searching on a column whose value in the new row occurs in no
earlier data row, returns exactly the appended values, with the keys being
the full header so that blank positions are present as empty strings. -/
theorem append_find_roundtrip (H : List String) (rows : List (List String))
    (values : List String) (c v : String) (i : Nat)
    (hlen : values.length = H.length)
    (hidx : H.findIdx? (· == c) = some i)
    (hval : values.get? i = some v)
    (huniq : ∀ r ∈ rows, r.get? i ≠ some v) :
    findRowByValue (appendToSheet (H :: rows) values) c (some v) =
      .ok (some (rowObject H values)) ∧
    (rowObject H values).map Prod.fst = H ∧
    (rowObject H values).map Prod.snd = values := by
  refine ⟨?_, rowObject_fst H values, rowObject_snd H values hlen⟩
  show findRowByValue (H :: (rows ++ [values])) c (some v) = _
  simp only [findRowByValue, hidx]
  rw [find?_first _ rows values []
    (fun q hq => beq_eq_false_iff_ne.mpr (huniq q hq))
    (by simp only [beq_iff_eq]; exact hval)]

theorem append_find_roundtrip_witness :
    findRowByValue
        (appendToSheet [["id", "email", "notes"], ["1", "a@x.com", "n1"]]
          ["2", "b@x.com", ""])
        "id" (some "2") =
      .ok (some [("id", "2"), ("email", "b@x.com"), ("notes", "")]) :=
  (append_find_roundtrip ["id", "email", "notes"] [["1", "a@x.com", "n1"]]
    ["2", "b@x.com", ""] "id" "2" 0 rfl rfl rfl (by decide)).1

/-- Claim C8: for an external identity whose email has no existing user
row, googleLogin appends exactly one new user row with role user, status
active, created timestamp equal to the current time and the affiliation
derived by the static domain lookup, unmatched or missing domains mapping
to the generic external affiliation; the user row it returns is the one
read back by email from the updated grid, not the appended values. -/
theorem googleLogin_creates_user (users : Grid) (now : String) (profile : GoogleProfile)
    (email : String)
    (hemail : profile.email = some email) (hne : email ≠ "")
    (habs : findRowByValue users "email" (some email) = .ok none) :
    (googleLogin users now profile).1 =
      appendToSheet users
        [profile.sub, email, jsOr profile.given_name "Unknown",
         jsOr profile.family_name "User", getPartnerCompanyFromEmail email,
         "user", "active", now] ∧
    (∀ u, (googleLogin users now profile).2 = .ok u →
      findRowByValue ((googleLogin users now profile).1) "email" (some email) =
        .ok (some u)) ∧
    (∀ e d, (jsSplit '@' e)[1]? = some d →
      jsToLowerCase d ∉ (["techflow.com", "digitalinnovations.com", "cloudware.com",
        "databridge.com", "daxa.ai"] : List String) →
      getPartnerCompanyFromEmail e = "External Partner") ∧
    (∀ e, (jsSplit '@' e)[1]? = none →
      getPartnerCompanyFromEmail e = "External Partner") := by
  refine ⟨?_, ?_, ?_, ?_⟩
  · cases hfr : findRowByValue
        (appendToSheet users [profile.sub, email, jsOr profile.given_name "Unknown",
          jsOr profile.family_name "User", getPartnerCompanyFromEmail email,
          "user", "active", now]) "email" (some email) with
    | error err => simp [googleLogin, jsTruthy, hemail, hne, habs, hfr]
    | ok o => cases o <;> simp [googleLogin, jsTruthy, hemail, hne, habs, hfr]
  · intro u hu
    cases hfr : findRowByValue
        (appendToSheet users [profile.sub, email, jsOr profile.given_name "Unknown",
          jsOr profile.family_name "User", getPartnerCompanyFromEmail email,
          "user", "active", now]) "email" (some email) with
    | error err => simp [googleLogin, jsTruthy, hemail, hne, habs, hfr] at hu
    | ok o =>
      cases o with
      | none => simp [googleLogin, jsTruthy, hemail, hne, habs, hfr] at hu
      | some user =>
        simp [googleLogin, jsTruthy, hemail, hne, habs, hfr] at hu ⊢
        exact hu ▸ rfl
  · intro e d hd hnot
    simp only [List.mem_cons, List.not_mem_nil, or_false, not_or] at hnot
    obtain ⟨h1, h2, h3, h4, h5⟩ := hnot
    simp [getPartnerCompanyFromEmail, hd, h1, h2, h3, h4, h5]
  · intro e hd
    simp [getPartnerCompanyFromEmail, hd]

theorem googleLogin_creates_user_witness :
    (googleLogin
      [["id", "email", "first_name", "last_name", "partner_company", "role", "status",
        "created_at"]]
      "2024-01-01T00:00:00Z"
      { sub := "g1", email := some "new@nowhere.org", given_name := some "New",
        family_name := none }).1 =
    [["id", "email", "first_name", "last_name", "partner_company", "role", "status",
      "created_at"],
     ["g1", "new@nowhere.org", "New", "User", "External Partner", "user", "active",
      "2024-01-01T00:00:00Z"]] :=
  ((googleLogin_creates_user
    [["id", "email", "first_name", "last_name", "partner_company", "role", "status",
      "created_at"]]
    "2024-01-01T00:00:00Z"
    { sub := "g1", email := some "new@nowhere.org", given_name := some "New",
      family_name := none }
    "new@nowhere.org" rfl (by decide) rfl).1).trans (by decide)

/-- Claim C9: getDeals applies the row limit to the scanned table position
before the ownership and query filters: the result is the filter applied
to the first limit data rows, every returned deal is among the first limit
data rows, and rows beyond that position never contribute even when fewer
than limit deals pass the filter. -/
theorem getDeals_limit_before_filter (H : List String) (rows : List (List String))
    (user : Option ReqUser) (status partner : Option String) (limit : Nat) :
    getDeals (H :: rows) user status partner limit =
      ((rows.take limit).map (rowObject H)).filter (dealPred user status partner) ∧
    getDeals (H :: rows) user status partner limit ⊆ (rows.take limit).map (rowObject H) ∧
    getDeals (H :: rows) user status partner limit =
      getDeals (H :: rows.take limit) user status partner limit := by
  have h1 : getDeals (H :: rows) user status partner limit =
      ((rows.take limit).map (rowObject H)).filter (dealPred user status partner) := by
    cases rows with
    | nil => simp [getDeals]
    | cons r rs => rfl
  have h2 : getDeals (H :: rows.take limit) user status partner limit =
      (((rows.take limit).take limit).map (rowObject H)).filter
        (dealPred user status partner) := by
    cases h : rows.take limit with
    | nil => simp [getDeals]
    | cons a as => rfl
  refine ⟨h1, ?_, ?_⟩
  · rw [h1]
    exact fun m hm => List.mem_of_mem_filter hm
  · rw [h1, h2, List.take_take, min_self]

/-- Claim C10: the duplicate check result is a function of the Deals grid
and the two query strings alone, identical for any two callers including
an anonymous one; it returns the full row contents of every data row whose
status is not rejected and whose company name or domain matches the query
up to case, and the ownership filter is never applied to these rows. -/
theorem checkDuplicate_identity_independent (dealsE : Except Unit Grid)
    (H : List String) (rows : List (List String)) (u1 u2 : Option ReqUser) (c d : String)
    (hc : c ≠ "") (hd : d ≠ "") :
    checkDuplicateHandler dealsE u1 (some c) (some d) =
      checkDuplicateHandler dealsE u2 (some c) (some d) ∧
    checkDuplicateHandler dealsE u1 (some c) (some d) =
      .ok (checkDuplicateDeals dealsE c d) ∧
    (checkDuplicateDeals (.ok (H :: rows)) c d).2 =
      (rows.filter (fun row =>
        ((jsAt row (H.findIdx? (· == "status"))).getD "" != "rejected") &&
        (jsToLowerCase ((jsAt row (H.findIdx? (· == "company_name"))).getD "") ==
            jsToLowerCase c ||
         jsToLowerCase ((jsAt row (H.findIdx? (· == "domain"))).getD "") ==
            jsToLowerCase d))).map (rowObject H) ∧
    ∀ m ∈ (checkDuplicateDeals (.ok (H :: rows)) c d).2, m.map Prod.fst = H := by
  refine ⟨rfl, ?_, rfl, ?_⟩
  · simp [checkDuplicateHandler, jsTruthy, hc, hd]
  · intro m hm
    simp only [checkDuplicateDeals] at hm
    rcases List.mem_map.mp hm with ⟨row, _, hrow⟩
    exact hrow ▸ rowObject_fst H row

theorem checkDuplicate_identity_independent_witness :
    checkDuplicateHandler
        (.ok [["company_name", "domain", "status"], ["Acme", "acme.com", "submitted"]])
        (some { id := none, email := some "other@x.com", role := some "user",
                partnerId := none, firstName := none, lastName := none,
                partnerName := none })
        (some "acme") (some "ACME.com") =
      checkDuplicateHandler
        (.ok [["company_name", "domain", "status"], ["Acme", "acme.com", "submitted"]])
        none (some "acme") (some "ACME.com") :=
  (checkDuplicate_identity_independent
    (.ok [["company_name", "domain", "status"], ["Acme", "acme.com", "submitted"]])
    ["company_name", "domain", "status"] [["Acme", "acme.com", "submitted"]]
    (some { id := none, email := some "other@x.com", role := some "user",
            partnerId := none, firstName := none, lastName := none, partnerName := none })
    none "acme" "ACME.com" (by decide) (by decide)).1
